import Mathlib

/-!
Shallow embedding of the `wrist-agent` Lambda authorizer
(`lambda-authorizer/main.go`): credential extraction, token caching with a
circuit breaker, principal hashing, and Allow/Deny policy generation.

Go strings are modelled as Lean `String`s, with the Go byte-level string
operations (`strings.TrimSpace`, `strings.HasPrefix`, slicing,
`strings.EqualFold`) embedded as character-list operations.  Timestamps are
modelled as natural numbers (seconds); `time.Since t` at instant `now`
becomes `now - t` (truncated subtraction, which agrees with the Go
comparisons used by the code: a non-positive elapsed time is below every
positive bound).  The SSM client call is modelled as an explicit
`Except String String` input (error, or the raw parameter value), and the
mutable package-level cache and breaker singletons become explicit state
passed in and returned.  Locks disappear in this single-threaded embedding;
the double-checked reads they guard are kept literally.
-/

namespace WristAgent

/-- Go `unicode.IsSpace` restricted to the ASCII range, as used by
`strings.TrimSpace` on header values. -/
def isSpaceGo (c : Char) : Bool :=
  c == ' ' || c == '\t' || c == '\n' || c == '\x0b' || c == '\x0c' || c == '\r'

/-- `strings.TrimSpace`: drop leading and trailing whitespace. -/
def trimSpace (s : String) : String :=
  String.mk (((s.data.dropWhile isSpaceGo).reverse.dropWhile isSpaceGo).reverse)

/-- `strings.HasPrefix`: byte-prefix test, modelled on characters (the only
prefix used, `"Bearer "`, is ASCII, where the two coincide). -/
def hasPrefixGo (s p : String) : Bool :=
  p.data.isPrefixOf s.data

/-- Go string slicing `s[n:]` for an ASCII prefix of length `n`. -/
def dropStr (s : String) (n : Nat) : String :=
  String.mk (s.data.drop n)

/-- `strings.EqualFold` restricted to ASCII case folding, as used on header
names. -/
def eqFold (a b : String) : Bool :=
  a.data.map Char.toLower == b.data.map Char.toLower

/-- Authorization error type constants from `main.go`. -/
def ErrMissingToken : String := "missing_token"

def ErrInvalidToken : String := "invalid_token"

def ErrTokenMismatch : String := "token_mismatch"

def ErrSSMFailure : String := "ssm_failure"

/-- `defaultCacheDurationSeconds = 300` (5 minutes). -/
def defaultCacheDurationSeconds : Nat := 300

/-- `circuitBreakerThreshold = 3`: failures before the circuit opens. -/
def circuitBreakerThreshold : Nat := 3

/-- `circuitBreakerTimeout = 30 * time.Second`, in seconds. -/
def circuitBreakerTimeout : Nat := 30

/-- `TokenCache`: cached token with its expiration instant. -/
structure TokenCache where
  token : String
  expiration : Nat
deriving Repr, DecidableEq

/-- `CircuitBreaker`: failure count and instant of the last failure. -/
structure CircuitBreaker where
  failures : Nat
  lastFailure : Nat
deriving Repr, DecidableEq

/-- `CircuitBreaker.isOpen`, with the current instant made explicit.  Returns
the boolean result together with the (possibly reset) breaker state; the
double-checked reset condition under the write lock is kept literally. -/
def CircuitBreaker.isOpen (cb : CircuitBreaker) (now : Nat) : Bool × CircuitBreaker :=
  if cb.failures < circuitBreakerThreshold then
    (false, cb)
  else
    let timeSinceFailure := now - cb.lastFailure
    if timeSinceFailure < circuitBreakerTimeout then
      (true, cb)
    else
      if circuitBreakerThreshold ≤ cb.failures ∧ circuitBreakerTimeout ≤ now - cb.lastFailure then
        (false, { cb with failures := 0 })
      else
        (false, cb)

/-- `CircuitBreaker.recordFailure`: increment the count, stamp the instant. -/
def CircuitBreaker.recordFailure (cb : CircuitBreaker) (now : Nat) : CircuitBreaker :=
  { failures := cb.failures + 1, lastFailure := now }

/-- `CircuitBreaker.getFailures`. -/
def CircuitBreaker.getFailures (cb : CircuitBreaker) : Nat :=
  cb.failures

/-- `CircuitBreaker.reset`: unconditionally zero the failure count. -/
def CircuitBreaker.reset (cb : CircuitBreaker) : CircuitBreaker :=
  { cb with failures := 0 }

/-- Request headers: the Go `map[string]string` is modelled as an association
list (one entry per key); map iteration is modelled as list order. -/
def Headers := List (String × String)

/-- Go map lookup `headers[k]` (exact key match). -/
def lookupHeader (headers : List (String × String)) (k : String) : Option String :=
  (headers.find? (fun kv => kv.1 == k)).map (fun kv => kv.2)

/-- The predicate of the `X-Client-Token` scan in `extractToken`: a header
entry matches when its name `EqualFold`-matches `X-Client-Token` and its
trimmed value is non-empty (empty-after-trim entries are skipped). -/
def isUsableClientTokenHeader (kv : String × String) : Bool :=
  eqFold kv.1 "X-Client-Token" && trimSpace kv.2 != ""

/-- `extractToken`: the `X-Client-Token` scan (case-insensitive name match,
trimmed, all-whitespace skipped), then the exact-key `Authorization` lookup
with the literal `"Bearer "` prefix. -/
def extractToken (headers : List (String × String)) : String :=
  match headers.find? isUsableClientTokenHeader with
  | some kv => trimSpace kv.2
  | none =>
    match lookupHeader headers "Authorization" with
    | some auth =>
      if hasPrefixGo auth "Bearer " then
        let token := trimSpace (dropStr auth 7)
        if token != "" then token else ""
      else ""
    | none => ""

/-- One IAM policy statement, as built by `generatePolicy`. -/
structure IAMPolicyStatement where
  action : List String
  effect : String
  resource : List String
deriving Repr, DecidableEq

/-- The policy document; the Go zero value is `⟨"", []⟩`. -/
structure PolicyDocument where
  version : String
  statement : List IAMPolicyStatement
deriving Repr, DecidableEq

/-- `events.APIGatewayCustomAuthorizerResponse`: principal id, policy
document (zero-valued unless filled in), and optional context map. -/
structure AuthorizerResponse where
  principalID : String
  policyDocument : PolicyDocument
  ctx : Option (List (String × String))
deriving Repr, DecidableEq

/-- `generatePolicy`: builds the response, filling the policy document only
when both effect and resource are non-empty, and the context only when one
is supplied. -/
def generatePolicy (principalID effect resource : String)
    (ctx : Option (List (String × String))) : AuthorizerResponse :=
  let base : AuthorizerResponse :=
    { principalID := principalID, policyDocument := ⟨"", []⟩, ctx := none }
  let withDoc :=
    if effect ≠ "" ∧ resource ≠ "" then
      { base with policyDocument :=
          ⟨"2012-10-17", [⟨["execute-api:Invoke"], effect, [resource]⟩]⟩ }
    else base
  match ctx with
  | some c => { withDoc with ctx := some c }
  | none => withDoc

instance : DecidableEq (Except String String) := fun x y =>
  match x, y with
  | .ok a, .ok b =>
    if h : a = b then isTrue (by rw [h]) else isFalse (fun hc => h (Except.ok.inj hc))
  | .error a, .error b =>
    if h : a = b then isTrue (by rw [h]) else isFalse (fun hc => h (Except.error.inj hc))
  | .ok _, .error _ => isFalse (fun hc => Except.noConfusion hc)
  | .error _, .ok _ => isFalse (fun hc => Except.noConfusion hc)

/-- Result of `getExpectedToken`: the returned `(token, error)` pair, the
cache and breaker states after the call, and whether an SSM fetch was
attempted. -/
structure GetTokenResult where
  result : Except String String
  cache : TokenCache
  breaker : CircuitBreaker
  fetched : Bool
deriving Repr, DecidableEq

/-- `getExpectedToken`: fresh-cache fast path, circuit-breaker check with
stale fallback, double-checked freshness re-read, then the SSM fetch
(modelled by the `ssm` input) with failure recording, stale fallback,
empty-value rejection and cache refresh. -/
def getExpectedToken (tc : TokenCache) (cb : CircuitBreaker) (now : Nat)
    (ssm : Except String String) (cacheDuration : Nat) : GetTokenResult :=
  let token := tc.token
  let expiration := tc.expiration
  if token ≠ "" ∧ now < expiration then
    ⟨.ok token, tc, cb, false⟩
  else
    let res := cb.isOpen now
    if res.1 then
      let cachedToken := tc.token
      if cachedToken ≠ "" then
        ⟨.ok cachedToken, tc, res.2, false⟩
      else
        ⟨.error "circuit breaker open and no cached token available", tc, res.2, false⟩
    else
      if tc.token ≠ "" ∧ now < tc.expiration then
        ⟨.ok tc.token, tc, res.2, false⟩
      else
        match ssm with
        | .error e =>
          let cb2 := res.2.recordFailure now
          if tc.token ≠ "" then
            ⟨.ok tc.token, tc, cb2, true⟩
          else
            ⟨.error ("failed to get SSM parameter: " ++ e), tc, cb2, true⟩
        | .ok raw =>
          let cb2 := res.2.reset
          let fetched := trimSpace raw
          if fetched = "" then
            ⟨.error "SSM parameter returned empty value", tc, cb2, true⟩
          else
            ⟨.ok fetched, ⟨fetched, now + cacheDuration⟩, cb2, true⟩

/-- Result of `handler`: the authorizer response, the cache and breaker
states after the call, and the Go error return (always nil). -/
structure HandlerResult where
  response : AuthorizerResponse
  cache : TokenCache
  breaker : CircuitBreaker
  err : Option String
deriving Repr, DecidableEq

/-- UTF-8 encoding of one character, modelling Go's `[]byte(string)`. -/
def utf8Bytes (c : Char) : List Nat :=
  let n := c.toNat
  if n < 128 then [n]
  else if n < 2048 then [192 + n / 64, 128 + n % 64]
  else if n < 65536 then [224 + n / 4096, 128 + (n / 64) % 64, 128 + n % 64]
  else [240 + n / 262144, 128 + (n / 4096) % 64, 128 + (n / 64) % 64, 128 + n % 64]

/-- The bytes of a string (Go `[]byte(token)`). -/
def strBytes (s : String) : List Nat :=
  s.data.flatMap utf8Bytes

/-- Truncation to 32 bits. -/
def w32 (n : Nat) : Nat := n % 4294967296

/-- 32-bit right rotation. -/
def rotr (n x : Nat) : Nat := w32 ((x >>> n) ||| (x <<< (32 - n)))

/-- Logical right shift. -/
def shr (n x : Nat) : Nat := x >>> n

/-- SHA-256 round constants. -/
def sha256K : List Nat :=
  [1116352408, 1899447441, 3049323471, 3921009573, 961987163,
   1508970993, 2453635748, 2870763221, 3624381080, 310598401,
   607225278, 1426881987, 1925078388, 2162078206, 2614888103,
   3248222580, 3835390401, 4022224774, 264347078, 604807628,
   770255983, 1249150122, 1555081692, 1996064986, 2554220882,
   2821834349, 2952996808, 3210313671, 3336571891, 3584528711,
   113926993, 338241895, 666307205, 773529912, 1294757372,
   1396182291, 1695183700, 1986661051, 2177026350, 2456956037,
   2730485921, 2820302411, 3259730800, 3345764771, 3516065817,
   3600352804, 4094571909, 275423344, 430227734, 506948616,
   659060556, 883997877, 958139571, 1322822218, 1537002063,
   1747873779, 1955562222, 2024104815, 2227730452, 2361852424,
   2428436474, 2756734187, 3204031479, 3329325298]

/-- SHA-256 initial hash words. -/
def sha256InitH : List Nat :=
  [0x6a09e667, 0xbb67ae85, 0x3c6ef372, 0xa54ff53a, 0x510e527f, 0x9b05688c, 0x1f83d9ab, 0x5be0cd19]

/-- SHA-256 small sigma 0. -/
def smallSigma0 (x : Nat) : Nat := (rotr 7 x) ^^^ (rotr 18 x) ^^^ (shr 3 x)

/-- SHA-256 small sigma 1. -/
def smallSigma1 (x : Nat) : Nat := (rotr 17 x) ^^^ (rotr 19 x) ^^^ (shr 10 x)

/-- SHA-256 big sigma 0. -/
def bigSigma0 (x : Nat) : Nat := (rotr 2 x) ^^^ (rotr 13 x) ^^^ (rotr 22 x)

/-- SHA-256 big sigma 1. -/
def bigSigma1 (x : Nat) : Nat := (rotr 6 x) ^^^ (rotr 11 x) ^^^ (rotr 25 x)

/-- SHA-256 choice function (bitwise not as xor with all ones). -/
def chFn (x y z : Nat) : Nat := (x &&& y) ^^^ ((x ^^^ 4294967295) &&& z)

/-- SHA-256 majority function. -/
def majFn (x y z : Nat) : Nat := (x &&& y) ^^^ (x &&& z) ^^^ (y &&& z)

/-- SHA-256 message padding: `0x80`, zeros to 56 mod 64, then the bit length
in 8 big-endian bytes. -/
def padMessage (msg : List Nat) : List Nat :=
  let len := msg.length
  let zeros := (119 - len % 64) % 64
  let lenBytes := (List.range 8).map (fun j => ((len * 8) >>> (8 * (7 - j))) % 256)
  msg ++ [128] ++ List.replicate zeros 0 ++ lenBytes

/-- Split a byte list into 64-byte chunks. -/
def chunks64 (l : List Nat) : List (List Nat) :=
  if h : l = [] then []
  else
    (l.take 64) :: chunks64 (l.drop 64)
termination_by l.length
decreasing_by
  simp only [List.length_drop]
  exact Nat.sub_lt (List.length_pos.mpr h) (by norm_num)

/-- Big-endian conversion of groups of 4 bytes into 32-bit words. -/
def bytesToWords : List Nat → List Nat
  | b0 :: b1 :: b2 :: b3 :: rest =>
    (b0 * 16777216 + b1 * 65536 + b2 * 256 + b3) :: bytesToWords rest
  | _ => []

/-- Extend the 16 chunk words to the 64-word message schedule. -/
def extendWords (ws : List Nat) : List Nat :=
  (List.range 48).foldl
    (fun acc _ =>
      let n := acc.length
      acc ++ [w32 (smallSigma1 (acc.getD (n - 2) 0) + acc.getD (n - 7) 0 +
                   smallSigma0 (acc.getD (n - 15) 0) + acc.getD (n - 16) 0)])
    ws

/-- The eight SHA-256 working variables. -/
structure HashState where
  a : Nat
  b : Nat
  c : Nat
  d : Nat
  e : Nat
  f : Nat
  g : Nat
  h : Nat
deriving Repr, DecidableEq

/-- One SHA-256 compression round, consuming a `(k, w)` pair. -/
def compressStep (s : HashState) (kw : Nat × Nat) : HashState :=
  let t1 := w32 (s.h + bigSigma1 s.e + chFn s.e s.f s.g + kw.1 + kw.2)
  let t2 := w32 (bigSigma0 s.a + majFn s.a s.b s.c)
  ⟨w32 (t1 + t2), s.a, s.b, s.c, w32 (s.d + t1), s.e, s.f, s.g⟩

/-- Process one 64-byte chunk into the running hash. -/
def processChunk (H : List Nat) (chunk : List Nat) : List Nat :=
  let ws := extendWords (bytesToWords chunk)
  let s0 : HashState :=
    ⟨H.getD 0 0, H.getD 1 0, H.getD 2 0, H.getD 3 0,
     H.getD 4 0, H.getD 5 0, H.getD 6 0, H.getD 7 0⟩
  let s := (sha256K.zip ws).foldl compressStep s0
  [w32 (H.getD 0 0 + s.a), w32 (H.getD 1 0 + s.b), w32 (H.getD 2 0 + s.c),
   w32 (H.getD 3 0 + s.d), w32 (H.getD 4 0 + s.e), w32 (H.getD 5 0 + s.f),
   w32 (H.getD 6 0 + s.g), w32 (H.getD 7 0 + s.h)]

/-- Serialize one 32-bit word into 4 big-endian bytes. -/
def wordToBytes (w : Nat) : List Nat :=
  [(w >>> 24) % 256, (w >>> 16) % 256, (w >>> 8) % 256, w % 256]

/-- SHA-256 of a byte list, as a 32-byte digest (Go `sha256.Sum256`). -/
def sha256 (msg : List Nat) : List Nat :=
  ((chunks64 (padMessage msg)).foldl processChunk sha256InitH).flatMap wordToBytes

/-- Lowercase hexadecimal digit for a value below 16. -/
def hexDigitChar (n : Nat) : Char :=
  if n < 10 then Char.ofNat (48 + n) else Char.ofNat (87 + n)

/-- Lowercase hex encoding of one byte (Go `hex.EncodeToString`). -/
def byteToHex (b : Nat) : List Char :=
  [hexDigitChar (b / 16), hexDigitChar (b % 16)]

/-- Lowercase hex encoding of a byte list. -/
def hexEncode (bs : List Nat) : String :=
  String.mk (bs.flatMap byteToHex)

/-- `hashToken`: `"user-"` followed by the hex encoding of the first 8 bytes
of the SHA-256 digest of the token. -/
def hashToken (token : String) : String :=
  "user-" ++ hexEncode ((sha256 (strBytes token)).take 8)

/-- `handler`: extract the credential, resolve the expected token, compare,
and emit an Allow/Deny policy; the Go error return is always nil. -/
def handler (headers : List (String × String)) (methodArn : String)
    (tc : TokenCache) (cb : CircuitBreaker) (now : Nat)
    (ssm : Except String String) (cacheDuration : Nat) : HandlerResult :=
  let token := extractToken headers
  if token = "" then
    ⟨generatePolicy "user" "Deny" methodArn (some [("errorType", ErrMissingToken)]),
     tc, cb, none⟩
  else
    let r := getExpectedToken tc cb now ssm cacheDuration
    match r.result with
    | .error _ =>
      ⟨generatePolicy "user" "Deny" methodArn (some [("errorType", ErrSSMFailure)]),
       r.cache, r.breaker, none⟩
    | .ok expectedToken =>
      if token ≠ expectedToken then
        ⟨generatePolicy "user" "Deny" methodArn (some [("errorType", ErrTokenMismatch)]),
         r.cache, r.breaker, none⟩
      else
        ⟨generatePolicy (hashToken token) "Allow" methodArn (some [("authenticated", "true")]),
         r.cache, r.breaker, none⟩

/-- The effect carried by a response's policy document (empty when the
document was left zero-valued). -/
def responseEffect (r : AuthorizerResponse) : String :=
  (r.policyDocument.statement.headD ⟨[], "", []⟩).effect

/-- A lowercase hexadecimal digit character. -/
def isLowerHexDigit (c : Char) : Bool :=
  ('0' ≤ c && c ≤ '9') || ('a' ≤ c && c ≤ 'f')

theorem isOpen_fst_iff (cb : CircuitBreaker) (now : Nat) :
    (cb.isOpen now).1 = true ↔
      circuitBreakerThreshold ≤ cb.failures ∧ now - cb.lastFailure < circuitBreakerTimeout := by
  unfold CircuitBreaker.isOpen
  by_cases h1 : cb.failures < circuitBreakerThreshold
  · rw [if_pos h1]
    simp only [Prod.fst]
    constructor
    · intro hc; cases hc
    · intro ⟨hc, _⟩; omega
  · rw [if_neg h1]
    by_cases h2 : now - cb.lastFailure < circuitBreakerTimeout
    · simp only [if_pos h2]
      simp only [true_iff]
      exact ⟨by omega, h2⟩
    · simp only [if_neg h2]
      by_cases h3 : circuitBreakerThreshold ≤ cb.failures ∧ circuitBreakerTimeout ≤ now - cb.lastFailure
      · rw [if_pos h3]
        constructor
        · intro hc; cases hc
        · intro ⟨_, hlt⟩; omega
      · rw [if_neg h3]
        constructor
        · intro hc; cases hc
        · intro ⟨_, hlt⟩; omega

theorem isOpen_fst_true_snd (cb : CircuitBreaker) (now : Nat)
    (h : (cb.isOpen now).1 = true) : (cb.isOpen now).2 = cb := by
  unfold CircuitBreaker.isOpen at h ⊢
  by_cases h1 : cb.failures < circuitBreakerThreshold
  · rw [if_pos h1]
  · rw [if_neg h1] at h ⊢
    by_cases h2 : now - cb.lastFailure < circuitBreakerTimeout
    · simp only [if_pos h2]
    · simp only [if_neg h2] at h
      by_cases h3 : circuitBreakerThreshold ≤ cb.failures ∧ circuitBreakerTimeout ≤ now - cb.lastFailure
      · rw [if_pos h3] at h; cases h
      · rw [if_neg h3] at h; cases h

theorem isOpen_reset_eq (cb : CircuitBreaker) (now : Nat)
    (h1 : circuitBreakerThreshold ≤ cb.failures)
    (h2 : circuitBreakerTimeout ≤ now - cb.lastFailure) :
    cb.isOpen now = (false, ⟨0, cb.lastFailure⟩) := by
  unfold CircuitBreaker.isOpen
  rw [if_neg (by omega), if_neg (by omega), if_pos ⟨h1, h2⟩]

/-- C3: for every breaker state, `isOpen` returns true iff the failure count
has reached the threshold (3) and less than the 30s cool-down has elapsed
since the last failure; after exactly three consecutive recorded failures
`isOpen` is true at the instant of the last failure; once the cool-down has
elapsed, the next `isOpen` call returns false and zeroes the failure count,
and a repeated call leaves the state unchanged (the reset happens exactly
once); and the only state change `isOpen` can make is that single zeroing. -/
theorem circuitBreaker_isOpen_spec :
    (∀ (cb : CircuitBreaker) (now : Nat),
       ((cb.isOpen now).1 = true ↔
         circuitBreakerThreshold ≤ cb.failures ∧
           now - cb.lastFailure < circuitBreakerTimeout)) ∧
    (∀ (cb : CircuitBreaker) (t1 t2 t3 : Nat), cb.failures = 0 →
       ((((cb.recordFailure t1).recordFailure t2).recordFailure t3).isOpen t3).1 = true) ∧
    (∀ (cb : CircuitBreaker) (now : Nat),
       circuitBreakerThreshold ≤ cb.failures →
       circuitBreakerTimeout ≤ now - cb.lastFailure →
         cb.isOpen now = (false, ⟨0, cb.lastFailure⟩) ∧
         CircuitBreaker.isOpen ⟨0, cb.lastFailure⟩ now = (false, ⟨0, cb.lastFailure⟩)) ∧
    (∀ (cb : CircuitBreaker) (now : Nat),
       (cb.isOpen now).2 = cb ∨
         ((cb.isOpen now).1 = false ∧ circuitBreakerThreshold ≤ cb.failures ∧
          circuitBreakerTimeout ≤ now - cb.lastFailure ∧
          (cb.isOpen now).2 = ⟨0, cb.lastFailure⟩)) := by
  refine ⟨isOpen_fst_iff, ?_, ?_, ?_⟩
  · intro cb t1 t2 t3 h0
    rw [isOpen_fst_iff]
    simp only [CircuitBreaker.recordFailure, h0]
    exact ⟨by simp [circuitBreakerThreshold], by simp [circuitBreakerTimeout]⟩
  · intro cb now h1 h2
    refine ⟨isOpen_reset_eq cb now h1 h2, ?_⟩
    unfold CircuitBreaker.isOpen
    rw [if_pos]
    simp [circuitBreakerThreshold]
  · intro cb now
    unfold CircuitBreaker.isOpen
    by_cases h1 : cb.failures < circuitBreakerThreshold
    · rw [if_pos h1]; left; rfl
    · rw [if_neg h1]
      by_cases h2 : now - cb.lastFailure < circuitBreakerTimeout
      · simp only [if_pos h2]; left; trivial
      · simp only [if_neg h2]
        by_cases h3 : circuitBreakerThreshold ≤ cb.failures ∧ circuitBreakerTimeout ≤ now - cb.lastFailure
        · rw [if_pos h3]; right; exact ⟨rfl, h3.1, h3.2, rfl⟩
        · rw [if_neg h3]; left; rfl

/-- Witness for `circuitBreaker_isOpen_spec`: three failures starting from
the initial state open the breaker at once, and with the cool-down elapsed
a single `isOpen` call resets the count to zero, a second call changing
nothing. -/
theorem circuitBreaker_isOpen_spec_witness :
    (((((⟨0, 0⟩ : CircuitBreaker).recordFailure 1).recordFailure 2).recordFailure 3).isOpen 3).1
        = true ∧
    (⟨0, 0⟩ : CircuitBreaker).failures = 0 ∧
    circuitBreakerThreshold ≤ (⟨3, 10⟩ : CircuitBreaker).failures ∧
    circuitBreakerTimeout ≤ 45 - (⟨3, 10⟩ : CircuitBreaker).lastFailure ∧
    CircuitBreaker.isOpen ⟨3, 10⟩ 45 = (false, ⟨0, 10⟩) ∧
    CircuitBreaker.isOpen ⟨0, 10⟩ 45 = (false, ⟨0, 10⟩) :=
  ⟨circuitBreaker_isOpen_spec.2.1 ⟨0, 0⟩ 1 2 3 rfl, rfl, by decide, by decide,
   (circuitBreaker_isOpen_spec.2.2.1 ⟨3, 10⟩ 45 (by decide) (by decide)).1,
   (circuitBreaker_isOpen_spec.2.2.1 ⟨3, 10⟩ 45 (by decide) (by decide)).2⟩

/-- C9: when the cached value is non-empty and unexpired, `getExpectedToken`
returns exactly the cached value with no error, attempts no fetch, and
leaves the cache and circuit-breaker states unchanged. -/
theorem getExpectedToken_fresh (tc : TokenCache) (cb : CircuitBreaker) (now : Nat)
    (ssm : Except String String) (dur : Nat)
    (htok : tc.token ≠ "") (hexp : now < tc.expiration) :
    getExpectedToken tc cb now ssm dur = ⟨.ok tc.token, tc, cb, false⟩ := by
  unfold getExpectedToken
  rw [if_pos ⟨htok, hexp⟩]

/-- Witness for `getExpectedToken_fresh` at a concrete fresh cache. -/
theorem getExpectedToken_fresh_witness :
    (⟨"tok", 100⟩ : TokenCache).token ≠ "" ∧
    50 < (⟨"tok", 100⟩ : TokenCache).expiration ∧
    getExpectedToken ⟨"tok", 100⟩ ⟨0, 0⟩ 50 (.error "down") 300 =
      ⟨.ok "tok", ⟨"tok", 100⟩, ⟨0, 0⟩, false⟩ :=
  ⟨by decide, by decide,
   getExpectedToken_fresh ⟨"tok", 100⟩ ⟨0, 0⟩ 50 (.error "down") 300 (by decide) (by decide)⟩

/-- C4: when the breaker is open, `getExpectedToken` never attempts a fetch;
with any previously cached value it returns that value (stale or not)
without error and with all state unchanged, and with no cached value it
returns a hard error. -/
theorem getExpectedToken_breaker_open (tc : TokenCache) (cb : CircuitBreaker) (now : Nat)
    (ssm : Except String String) (dur : Nat)
    (hopen : (cb.isOpen now).1 = true) :
    (tc.token ≠ "" →
       getExpectedToken tc cb now ssm dur = ⟨.ok tc.token, tc, cb, false⟩) ∧
    (tc.token = "" →
       getExpectedToken tc cb now ssm dur =
         ⟨.error "circuit breaker open and no cached token available", tc, cb, false⟩) := by
  have hsnd := isOpen_fst_true_snd cb now hopen
  constructor
  · intro ht
    unfold getExpectedToken
    by_cases hfresh : tc.token ≠ "" ∧ now < tc.expiration
    · rw [if_pos hfresh]
    · rw [if_neg hfresh]
      simp only [hopen, if_true, hsnd]
      rw [if_pos ht]
  · intro ht
    unfold getExpectedToken
    rw [if_neg (by simp [ht])]
    simp only [hopen, if_true, hsnd]
    rw [if_neg (by simp [ht])]

/-- Witness for `getExpectedToken_breaker_open`: open breaker, expired
cached value served stale; open breaker, empty cache errors. -/
theorem getExpectedToken_breaker_open_witness :
    ((⟨3, 40⟩ : CircuitBreaker).isOpen 50).1 = true ∧
    (⟨"old", 10⟩ : TokenCache).token ≠ "" ∧
    getExpectedToken ⟨"old", 10⟩ ⟨3, 40⟩ 50 (.error "down") 300 =
      ⟨.ok "old", ⟨"old", 10⟩, ⟨3, 40⟩, false⟩ ∧
    getExpectedToken ⟨"", 0⟩ ⟨3, 40⟩ 50 (.error "down") 300 =
      ⟨.error "circuit breaker open and no cached token available", ⟨"", 0⟩, ⟨3, 40⟩, false⟩ :=
  ⟨by decide, by decide,
   (getExpectedToken_breaker_open ⟨"old", 10⟩ ⟨3, 40⟩ 50 (.error "down") 300 (by decide)).1
     (by decide),
   (getExpectedToken_breaker_open ⟨"", 0⟩ ⟨3, 40⟩ 50 (.error "down") 300 (by decide)).2 rfl⟩

/-- C5: when a fetch is attempted and fails, the failure is recorded on the
breaker; a previously cached value is then served stale without error, and
only an empty cache propagates an error, the cache being unchanged in every
case. -/
theorem getExpectedToken_fetch_failure (tc : TokenCache) (cb : CircuitBreaker) (now : Nat)
    (e : String) (dur : Nat)
    (hstale : ¬(tc.token ≠ "" ∧ now < tc.expiration))
    (hclosed : (cb.isOpen now).1 = false) :
    (getExpectedToken tc cb now (.error e) dur).breaker =
        ((cb.isOpen now).2).recordFailure now ∧
    (getExpectedToken tc cb now (.error e) dur).cache = tc ∧
    (getExpectedToken tc cb now (.error e) dur).fetched = true ∧
    (tc.token ≠ "" →
       (getExpectedToken tc cb now (.error e) dur).result = .ok tc.token) ∧
    (tc.token = "" →
       (getExpectedToken tc cb now (.error e) dur).result =
         .error ("failed to get SSM parameter: " ++ e)) := by
  unfold getExpectedToken
  rw [if_neg hstale]
  simp only [hclosed, Bool.false_eq_true, if_false]
  rw [if_neg hstale]
  by_cases ht : tc.token = ""
  · rw [if_neg (by simp [ht])]
    exact ⟨rfl, rfl, rfl, fun hc => absurd ht hc, fun _ => rfl⟩
  · rw [if_pos ht]
    exact ⟨rfl, rfl, rfl, fun _ => rfl, fun hc => absurd hc ht⟩

/-- Witness for `getExpectedToken_fetch_failure`: expired cache, closed
breaker, failing fetch: failure recorded, stale value served. -/
theorem getExpectedToken_fetch_failure_witness :
    ¬((⟨"old", 10⟩ : TokenCache).token ≠ "" ∧ 50 < (⟨"old", 10⟩ : TokenCache).expiration) ∧
    ((⟨1, 0⟩ : CircuitBreaker).isOpen 50).1 = false ∧
    (getExpectedToken ⟨"old", 10⟩ ⟨1, 0⟩ 50 (.error "boom") 300).breaker =
      (((⟨1, 0⟩ : CircuitBreaker).isOpen 50).2).recordFailure 50 ∧
    (getExpectedToken ⟨"old", 10⟩ ⟨1, 0⟩ 50 (.error "boom") 300).cache = ⟨"old", 10⟩ ∧
    (getExpectedToken ⟨"old", 10⟩ ⟨1, 0⟩ 50 (.error "boom") 300).result = .ok "old" :=
  ⟨by decide, by decide,
   (getExpectedToken_fetch_failure ⟨"old", 10⟩ ⟨1, 0⟩ 50 "boom" 300 (by decide) (by decide)).1,
   (getExpectedToken_fetch_failure ⟨"old", 10⟩ ⟨1, 0⟩ 50 "boom" 300 (by decide) (by decide)).2.1,
   (getExpectedToken_fetch_failure ⟨"old", 10⟩ ⟨1, 0⟩ 50 "boom" 300 (by decide) (by decide)).2.2.2.1
     (by decide)⟩

/-- C2 counterexample: with an expired cached value `"old"`, a closed
breaker at 2 failures, and a store fetch returning the all-whitespace value
`"   "`, `getExpectedToken` returns an error rather than the stale value,
and the breaker ends reset to 0 failures instead of incremented to 3 — so
an empty-after-trim fetch is not handled like a failed store fetch. -/
theorem getExpectedToken_empty_value_cex :
    (getExpectedToken ⟨"old", 10⟩ ⟨2, 5⟩ 50 (.ok "   ") 300).result ≠ .ok "old" ∧
    (getExpectedToken ⟨"old", 10⟩ ⟨2, 5⟩ 50 (.ok "   ") 300).breaker.failures ≠
      (⟨2, 5⟩ : CircuitBreaker).failures + 1 ∧
    (getExpectedToken ⟨"old", 10⟩ ⟨2, 5⟩ 50 (.ok "   ") 300).breaker =
      CircuitBreaker.reset ⟨2, 5⟩ ∧
    (getExpectedToken ⟨"old", 10⟩ ⟨2, 5⟩ 50 (.ok "   ") 300).result =
      .error "SSM parameter returned empty value" := by
  decide

/-- C2 as amended: when the fetch is attempted and the store returns a value
that is empty after trimming, the empty value is never stored in the cache
and an error is returned; the breaker is reset (the success was already
reported before the emptiness check), no failure is recorded, and the stale
cached value is not served. -/
theorem getExpectedToken_empty_value (tc : TokenCache) (cb : CircuitBreaker) (now : Nat)
    (raw : String) (dur : Nat)
    (hstale : ¬(tc.token ≠ "" ∧ now < tc.expiration))
    (hclosed : (cb.isOpen now).1 = false)
    (hempty : trimSpace raw = "") :
    getExpectedToken tc cb now (.ok raw) dur =
      ⟨.error "SSM parameter returned empty value", tc, ((cb.isOpen now).2).reset, true⟩ := by
  unfold getExpectedToken
  rw [if_neg hstale]
  simp only [hclosed, Bool.false_eq_true, if_false]
  rw [if_neg hstale]
  simp [hempty]

/-- Witness for `getExpectedToken_empty_value` at the concrete input of the
counterexample. -/
theorem getExpectedToken_empty_value_witness :
    ¬((⟨"old", 10⟩ : TokenCache).token ≠ "" ∧ 50 < (⟨"old", 10⟩ : TokenCache).expiration) ∧
    ((⟨2, 5⟩ : CircuitBreaker).isOpen 50).1 = false ∧
    trimSpace "   " = "" ∧
    getExpectedToken ⟨"old", 10⟩ ⟨2, 5⟩ 50 (.ok "   ") 300 =
      ⟨.error "SSM parameter returned empty value", ⟨"old", 10⟩,
       (((⟨2, 5⟩ : CircuitBreaker).isOpen 50).2).reset, true⟩ :=
  ⟨by decide, by decide, by decide,
   getExpectedToken_empty_value ⟨"old", 10⟩ ⟨2, 5⟩ 50 "   " 300
     (by decide) (by decide) (by decide)⟩

/-- C6: the first header whose name case-insensitively matches
`X-Client-Token` with a non-empty trimmed value determines the credential
(taking precedence over any `Authorization` header); with no such header,
the `Authorization` value contributes only with the literal `"Bearer "`
prefix and non-empty content after trimming, and otherwise the credential
is absent. -/
theorem extractToken_spec : ∀ hs : List (String × String),
    (∀ kv : String × String, hs.find? isUsableClientTokenHeader = some kv →
       eqFold kv.1 "X-Client-Token" = true ∧ trimSpace kv.2 ≠ "" ∧
       extractToken hs = trimSpace kv.2) ∧
    ((∀ p ∈ hs, eqFold p.1 "X-Client-Token" = true → trimSpace p.2 = "") →
       (∀ a : String, lookupHeader hs "Authorization" = some a →
          (hasPrefixGo a "Bearer " = true → trimSpace (dropStr a 7) ≠ "" →
             extractToken hs = trimSpace (dropStr a 7)) ∧
          (hasPrefixGo a "Bearer " = false → extractToken hs = "") ∧
          (hasPrefixGo a "Bearer " = true → trimSpace (dropStr a 7) = "" →
             extractToken hs = "")) ∧
       (lookupHeader hs "Authorization" = none → extractToken hs = "")) := by
  intro hs
  constructor
  · intro kv hfind
    have hp := List.find?_some hfind
    rw [isUsableClientTokenHeader, Bool.and_eq_true, bne_iff_ne] at hp
    refine ⟨hp.1, hp.2, ?_⟩
    unfold extractToken
    rw [hfind]
  · intro hnouse
    have hnone : hs.find? isUsableClientTokenHeader = none := by
      rw [List.find?_eq_none]
      intro x hx hus
      rw [isUsableClientTokenHeader, Bool.and_eq_true, bne_iff_ne] at hus
      exact hus.2 (hnouse x hx hus.1)
    constructor
    · intro a ha
      refine ⟨?_, ?_, ?_⟩
      · intro hpre hne
        simp only [extractToken, hnone, ha, hpre, if_true]
        rw [if_pos (bne_iff_ne.mpr hne)]
      · intro hpre
        simp only [extractToken, hnone, ha, hpre, Bool.false_eq_true, if_false]
      · intro hpre hempty
        simp only [extractToken, hnone, ha, hpre, if_true, hempty]
        simp
    · intro hlk
      simp only [extractToken, hnone, hlk]

/-- Witness for `extractToken_spec`: a lower-cased custom header wins over
the bearer fallback, with its value trimmed. -/
theorem extractToken_spec_witness :
    [(("x-client-token" : String), ("  tok " : String)),
     ("Authorization", "Bearer other")].find? isUsableClientTokenHeader =
      some ("x-client-token", "  tok ") ∧
    extractToken [("x-client-token", "  tok "), ("Authorization", "Bearer other")] =
      trimSpace "  tok " :=
  ⟨by decide,
   ((extractToken_spec [("x-client-token", "  tok "), ("Authorization", "Bearer other")]).1
     ("x-client-token", "  tok ") (by decide)).2.2⟩

/-- C7 counterexample: the bearer fallback header stored under the
lower-case name `authorization`, with a valid `"Bearer "` value and no
custom header present, yields the absent credential rather than the bearer
credential `"abc"`. -/
theorem extractToken_header_case_cex :
    hasPrefixGo "Bearer abc" "Bearer " = true ∧
    trimSpace (dropStr "Bearer abc" 7) = "abc" ∧
    (∀ p ∈ [(("authorization" : String), ("Bearer abc" : String))],
       eqFold p.1 "X-Client-Token" = false) ∧
    extractToken [("authorization", "Bearer abc")] = "" := by
  decide

/-- C7 as amended: header-name matching is case-insensitive only for the
custom `X-Client-Token` source; the bearer fallback requires the exact
header name `Authorization`, and any other capitalization of it (with no
usable custom header) yields the absent credential. -/
theorem extractToken_header_case_spec :
    (∀ (hs : List (String × String)) (a : String),
       (∀ p ∈ hs, eqFold p.1 "X-Client-Token" = true → trimSpace p.2 = "") →
       lookupHeader hs "Authorization" = some a →
       hasPrefixGo a "Bearer " = true → trimSpace (dropStr a 7) ≠ "" →
       extractToken hs = trimSpace (dropStr a 7)) ∧
    (∀ k v : String, eqFold k "X-Client-Token" = true → trimSpace v ≠ "" →
       extractToken [(k, v)] = trimSpace v) ∧
    (∀ k v : String, k ≠ "Authorization" → eqFold k "X-Client-Token" = false →
       extractToken [(k, v)] = "") := by
  refine ⟨?_, ?_, ?_⟩
  · intro hs a hnouse ha hpre hne
    have hnone : hs.find? isUsableClientTokenHeader = none := by
      rw [List.find?_eq_none]
      intro x hx hus
      rw [isUsableClientTokenHeader, Bool.and_eq_true, bne_iff_ne] at hus
      exact hus.2 (hnouse x hx hus.1)
    simp only [extractToken, hnone, ha, hpre, if_true]
    rw [if_pos (bne_iff_ne.mpr hne)]
  · intro k v hk hv
    have : isUsableClientTokenHeader (k, v) = true := by
      rw [isUsableClientTokenHeader, Bool.and_eq_true, bne_iff_ne]
      exact ⟨hk, hv⟩
    simp only [extractToken, List.find?_cons, this]
  · intro k v hk hfold
    have hus : isUsableClientTokenHeader (k, v) = false := by
      rw [isUsableClientTokenHeader, hfold, Bool.false_and]
    have hbe : (k == "Authorization") = false := beq_eq_false_iff_ne.mpr hk
    simp [extractToken, List.find?_cons, hus, lookupHeader, hbe]

/-- Witness for `extractToken_header_case_spec`: the exactly named
`Authorization` header contributes its bearer credential; a lower-cased
custom header name still matches; the lower-cased `authorization` name
contributes nothing. -/
theorem extractToken_header_case_spec_witness :
    extractToken [(("Authorization" : String), ("Bearer abc" : String))] =
      trimSpace (dropStr "Bearer abc" 7) ∧
    extractToken [(("x-client-token" : String), ("tok" : String))] = trimSpace "tok" ∧
    extractToken [(("AUTHORIZATION" : String), ("Bearer abc" : String))] = "" :=
  ⟨extractToken_header_case_spec.1 [("Authorization", "Bearer abc")] "Bearer abc"
     (by decide) (by decide) (by decide) (by decide),
   extractToken_header_case_spec.2.1 "x-client-token" "tok" (by decide) (by decide),
   extractToken_header_case_spec.2.2 "AUTHORIZATION" "Bearer abc" (by decide) (by decide)⟩

theorem generatePolicy_principalID (p eff r : String)
    (c : Option (List (String × String))) :
    (generatePolicy p eff r c).principalID = p := by
  simp only [generatePolicy]
  by_cases h : eff ≠ "" ∧ r ≠ ""
  · rw [if_pos h]; cases c <;> rfl
  · rw [if_neg h]; cases c <;> rfl

theorem generatePolicy_policyDocument (p eff r : String)
    (c : Option (List (String × String)))
    (heff : eff ≠ "") (hr : r ≠ "") :
    (generatePolicy p eff r c).policyDocument =
      ⟨"2012-10-17", [⟨["execute-api:Invoke"], eff, [r]⟩]⟩ := by
  simp only [generatePolicy]
  rw [if_pos ⟨heff, hr⟩]
  cases c <;> rfl

theorem responseEffect_generatePolicy (p eff r : String)
    (c : Option (List (String × String))) :
    responseEffect (generatePolicy p eff r c) =
      if eff ≠ "" ∧ r ≠ "" then eff else "" := by
  simp only [responseEffect, generatePolicy]
  by_cases h : eff ≠ "" ∧ r ≠ ""
  · rw [if_pos h, if_pos h]; cases c <;> rfl
  · rw [if_neg h, if_neg h]; cases c <;> rfl

/-- C1: the handler always returns a nil error and, when a resource is
present, a well-formed policy document; the outcome is determined by the
extracted credential: absent credential denies with `missing_token`, a hard
failure of the token lookup denies with `ssm_failure`, a mismatching
credential denies with `token_mismatch`, and a matching credential allows
with the hashed credential as principal and `authenticated: "true"`. -/
theorem handler_decision_spec (hs : List (String × String)) (arn : String)
    (tc : TokenCache) (cb : CircuitBreaker) (now : Nat)
    (ssm : Except String String) (dur : Nat) :
    (handler hs arn tc cb now ssm dur).err = none ∧
    (arn ≠ "" →
       (handler hs arn tc cb now ssm dur).response.policyDocument.version = "2012-10-17" ∧
       (handler hs arn tc cb now ssm dur).response.policyDocument.statement.length = 1) ∧
    (extractToken hs = "" →
       (handler hs arn tc cb now ssm dur).response =
         generatePolicy "user" "Deny" arn (some [("errorType", ErrMissingToken)])) ∧
    (extractToken hs ≠ "" → ∀ e, (getExpectedToken tc cb now ssm dur).result = .error e →
       (handler hs arn tc cb now ssm dur).response =
         generatePolicy "user" "Deny" arn (some [("errorType", ErrSSMFailure)])) ∧
    (extractToken hs ≠ "" → ∀ v, (getExpectedToken tc cb now ssm dur).result = .ok v →
       extractToken hs ≠ v →
       (handler hs arn tc cb now ssm dur).response =
         generatePolicy "user" "Deny" arn (some [("errorType", ErrTokenMismatch)])) ∧
    (extractToken hs ≠ "" → ∀ v, (getExpectedToken tc cb now ssm dur).result = .ok v →
       extractToken hs = v →
       (handler hs arn tc cb now ssm dur).response =
         generatePolicy (hashToken v) "Allow" arn (some [("authenticated", "true")])) := by
  refine ⟨?_, ?_, ?_, ?_, ?_, ?_⟩
  · simp only [handler]
    split
    · rfl
    · split
      · rfl
      · split <;> rfl
  · intro harn
    simp only [handler]
    split
    · rw [generatePolicy_policyDocument _ _ _ _ (by decide) harn]
      exact ⟨rfl, rfl⟩
    · split
      · rw [generatePolicy_policyDocument _ _ _ _ (by decide) harn]
        exact ⟨rfl, rfl⟩
      · split
        · rw [generatePolicy_policyDocument _ _ _ _ (by decide) harn]
          exact ⟨rfl, rfl⟩
        · rw [generatePolicy_policyDocument _ _ _ _ (by decide) harn]
          exact ⟨rfl, rfl⟩
  · intro hx
    simp only [handler]
    rw [if_pos hx]
  · intro hx e hres
    simp only [handler]
    rw [if_neg hx, hres]
  · intro hx v hres hne
    simp only [handler]
    rw [if_neg hx, hres]
    simp only []
    rw [if_pos hne]
  · intro hx v hres heq
    simp only [handler]
    rw [if_neg hx, hres]
    simp only []
    rw [if_neg (fun hc => hc heq), heq]

/-- Witness for `handler_decision_spec`: a request with no headers is
denied with the `missing_token` error type and a nil error. -/
theorem handler_decision_spec_witness :
    extractToken [] = "" ∧
    ("arn:test" : String) ≠ "" ∧
    (handler [] "arn:test" ⟨"tok", 100⟩ ⟨0, 0⟩ 50 (.ok "tok") 300).err = none ∧
    (handler [] "arn:test" ⟨"tok", 100⟩ ⟨0, 0⟩ 50 (.ok "tok") 300).response =
      generatePolicy "user" "Deny" "arn:test" (some [("errorType", ErrMissingToken)]) :=
  ⟨rfl, by decide,
   (handler_decision_spec [] "arn:test" ⟨"tok", 100⟩ ⟨0, 0⟩ 50 (.ok "tok") 300).1,
   (handler_decision_spec [] "arn:test" ⟨"tok", 100⟩ ⟨0, 0⟩ 50 (.ok "tok") 300).2.2.1 rfl⟩

/-- C10: every Deny decision carries the fixed principal id `"user"`, and
only an Allow decision carries the hashed credential as its principal id. -/
theorem handler_principal_spec (hs : List (String × String)) (arn : String)
    (tc : TokenCache) (cb : CircuitBreaker) (now : Nat)
    (ssm : Except String String) (dur : Nat) :
    (responseEffect (handler hs arn tc cb now ssm dur).response = "Deny" →
       (handler hs arn tc cb now ssm dur).response.principalID = "user") ∧
    (responseEffect (handler hs arn tc cb now ssm dur).response = "Allow" →
       (handler hs arn tc cb now ssm dur).response.principalID =
         hashToken (extractToken hs)) := by
  simp only [handler]
  split
  · constructor
    · intro _; exact generatePolicy_principalID _ _ _ _
    · intro h
      rw [responseEffect_generatePolicy] at h
      split at h
      · exact absurd h (by decide)
      · exact absurd h (by decide)
  · split
    · constructor
      · intro _; exact generatePolicy_principalID _ _ _ _
      · intro h
        rw [responseEffect_generatePolicy] at h
        split at h
        · exact absurd h (by decide)
        · exact absurd h (by decide)
    · split
      · constructor
        · intro _; exact generatePolicy_principalID _ _ _ _
        · intro h
          rw [responseEffect_generatePolicy] at h
          split at h
          · exact absurd h (by decide)
          · exact absurd h (by decide)
      · constructor
        · intro h
          rw [responseEffect_generatePolicy] at h
          split at h
          · exact absurd h (by decide)
          · exact absurd h (by decide)
        · intro _; exact generatePolicy_principalID _ _ _ _

/-- Witness for `handler_principal_spec`: for a header-less request the
decision is a Deny whose principal id is `"user"`. -/
theorem handler_principal_spec_witness :
    responseEffect (handler [] "arn:test" ⟨"tok", 100⟩ ⟨0, 0⟩ 50 (.ok "tok") 300).response =
      "Deny" ∧
    (handler [] "arn:test" ⟨"tok", 100⟩ ⟨0, 0⟩ 50 (.ok "tok") 300).response.principalID =
      "user" :=
  ⟨by decide,
   (handler_principal_spec [] "arn:test" ⟨"tok", 100⟩ ⟨0, 0⟩ 50 (.ok "tok") 300).1 (by decide)⟩

theorem flatMap_wordToBytes_length (l : List Nat) :
    (l.flatMap wordToBytes).length = 4 * l.length := by
  induction l with
  | nil => rfl
  | cons x xs ih =>
    simp only [List.flatMap_cons, List.length_append, ih, wordToBytes, List.length_cons,
      List.length_nil, List.length_cons]
    omega

theorem processChunk_length (H c : List Nat) : (processChunk H c).length = 8 := rfl

theorem foldl_processChunk_length (cs : List (List Nat)) :
    ∀ H : List Nat, H.length = 8 → (cs.foldl processChunk H).length = 8 := by
  induction cs with
  | nil => intro H h; simpa using h
  | cons c cs ih =>
    intro H _
    simpa [List.foldl_cons] using ih _ (processChunk_length H c)

theorem sha256_length (m : List Nat) : (sha256 m).length = 32 := by
  unfold sha256
  rw [flatMap_wordToBytes_length, foldl_processChunk_length _ sha256InitH rfl]

theorem mem_wordToBytes_lt (b w : Nat) (h : b ∈ wordToBytes w) : b < 256 := by
  simp only [wordToBytes, List.mem_cons, List.not_mem_nil, or_false] at h
  rcases h with h | h | h | h <;> subst h <;> exact Nat.mod_lt _ (by norm_num)

theorem sha256_mem_lt (m : List Nat) (b : Nat) (h : b ∈ sha256 m) : b < 256 := by
  unfold sha256 at h
  rw [List.mem_flatMap] at h
  obtain ⟨w, _, hb⟩ := h
  exact mem_wordToBytes_lt b w hb

theorem hexDigitChar_lowerHex : ∀ n < 16, isLowerHexDigit (hexDigitChar n) = true := by
  decide

theorem hexDigitChar_inj : ∀ m < 16, ∀ n < 16, hexDigitChar m = hexDigitChar n → m = n := by
  decide

theorem byteToHex_lowerHex (b : Nat) (hb : b < 256) :
    ∀ c ∈ byteToHex b, isLowerHexDigit c = true := by
  intro c hc
  simp only [byteToHex, List.mem_cons, List.not_mem_nil, or_false] at hc
  rcases hc with hc | hc <;> subst hc
  · exact hexDigitChar_lowerHex _ (by omega)
  · exact hexDigitChar_lowerHex _ (Nat.mod_lt _ (by norm_num))

theorem flatMap_byteToHex_length (bs : List Nat) :
    (bs.flatMap byteToHex).length = 2 * bs.length := by
  induction bs with
  | nil => rfl
  | cons b t ih =>
    simp only [List.flatMap_cons, List.length_append, ih, byteToHex, List.length_cons,
      List.length_nil]
    omega

theorem flatMap_byteToHex_inj : ∀ bs1 bs2 : List Nat,
    (∀ b ∈ bs1, b < 256) → (∀ b ∈ bs2, b < 256) →
    bs1.flatMap byteToHex = bs2.flatMap byteToHex → bs1 = bs2 := by
  intro bs1
  induction bs1 with
  | nil =>
    intro bs2 _ _ h
    cases bs2 with
    | nil => rfl
    | cons b t => simp [byteToHex] at h
  | cons b1 t1 ih =>
    intro bs2 hb1 hb2 h
    cases bs2 with
    | nil => simp [byteToHex] at h
    | cons b2 t2 =>
      simp only [List.flatMap_cons, byteToHex, List.cons_append, List.nil_append,
        List.cons.injEq] at h
      obtain ⟨hc1, hc2, hrest⟩ := h
      have hlt1 : b1 < 256 := hb1 b1 (List.mem_cons_self _ _)
      have hlt2 : b2 < 256 := hb2 b2 (List.mem_cons_self _ _)
      have hd : b1 / 16 = b2 / 16 :=
        hexDigitChar_inj _ (by omega) _ (by omega) hc1
      have hm : b1 % 16 = b2 % 16 :=
        hexDigitChar_inj _ (Nat.mod_lt _ (by norm_num)) _ (Nat.mod_lt _ (by norm_num)) hc2
      have hb : b1 = b2 := by omega
      subst hb
      have ht : t1 = t2 :=
        ih t2 (fun b hb => hb1 b (List.mem_cons_of_mem _ hb))
          (fun b hb => hb2 b (List.mem_cons_of_mem _ hb)) hrest
      rw [ht]

theorem hashToken_data (x : String) :
    (hashToken x).data =
      "user-".data ++ ((sha256 (strBytes x)).take 8).flatMap byteToHex := by
  unfold hashToken hexEncode
  rw [String.data_append]

theorem take8_sha256_lt (x : String) :
    ∀ b ∈ (sha256 (strBytes x)).take 8, b < 256 :=
  fun b hb => sha256_mem_lt _ b (List.take_subset _ _ hb)

/-- C8: `hashToken` is deterministic, always produces the stable tag
`"user-"` followed by exactly 16 lowercase hexadecimal characters (the hex
encoding of the first 8 bytes of the SHA-256 digest), and equal outputs
force equal 8-byte digest prefixes, so distinct inputs collide only when
their truncated SHA-256 digests collide. -/
theorem hashToken_spec (x y : String) :
    (x = y → hashToken x = hashToken y) ∧
    (hashToken x).data.length = 21 ∧
    (hashToken x).data.take 5 = "user-".data ∧
    ((hashToken x).data.drop 5).length = 16 ∧
    (∀ c ∈ (hashToken x).data.drop 5, isLowerHexDigit c = true) ∧
    (hashToken x = hashToken y →
       (sha256 (strBytes x)).take 8 = (sha256 (strBytes y)).take 8) := by
  have htake : ((sha256 (strBytes x)).take 8).length = 8 := by
    rw [List.length_take, sha256_length]
    rfl
  have hdata := hashToken_data x
  have hlen5 : ("user-".data).length = 5 := rfl
  refine ⟨fun h => by rw [h], ?_, ?_, ?_, ?_, ?_⟩
  · rw [hdata, List.length_append, hlen5, flatMap_byteToHex_length, htake]
  · rw [hdata, ← hlen5, List.take_left]
  · rw [hdata, ← hlen5, List.drop_left, flatMap_byteToHex_length, htake]
  · intro c hc
    rw [hdata, ← hlen5, List.drop_left] at hc
    rw [List.mem_flatMap] at hc
    obtain ⟨b, hb, hcb⟩ := hc
    exact byteToHex_lowerHex b (take8_sha256_lt x b hb) c hcb
  · intro h
    have hd := congrArg String.data h
    rw [hashToken_data, hashToken_data] at hd
    have hflat := List.append_cancel_left hd
    exact flatMap_byteToHex_inj _ _ (take8_sha256_lt x) (take8_sha256_lt y) hflat

/-- Witness for `hashToken_spec` at concrete tokens: determinism, the
21-character `user-`-prefixed format, and the digest-prefix consequence of
an output collision instantiated reflexively. -/
theorem hashToken_spec_witness :
    hashToken "token1" = hashToken "token1" ∧
    (hashToken "token1").data.length = 21 ∧
    (hashToken "token1").data.take 5 = "user-".data ∧
    (sha256 (strBytes "token1")).take 8 = (sha256 (strBytes "token1")).take 8 :=
  ⟨(hashToken_spec "token1" "token1").1 rfl,
   (hashToken_spec "token1" "token2").2.1,
   (hashToken_spec "token1" "token2").2.2.1,
   (hashToken_spec "token1" "token1").2.2.2.2.2 rfl⟩

end WristAgent
